import Mathlib

/-!
Shallow embedding of the chessguerilla educational chess-puzzle system:
the user skill profile (`UserSkillProfile`, src/unnamed/part_001), the
skill tracker and puzzle evaluator (`SkillTracker` / `PuzzleCore`,
src/src/js/education/skillTracker.js).

Modelling conventions:
* JavaScript numbers appearing in the rating arithmetic are modelled by
  exact rationals (`ℚ`), integer-valued quantities by `Int`/`Nat`.
* `Date` objects are modelled by their epoch-millisecond value; a field
  that can hold either a `Date` or the string `JSON` serialization of one
  uses the tagged type `JsTime`.
* Optional / defaulted JS object fields are `Option`s, and the JS `||`
  defaulting idiom is modelled by explicit helpers that reproduce JS
  falsiness (`0`, `""`, `null`/`undefined`).
* The external chess.js rules engine is out of scope per the spec and is
  modelled as an abstract collaborator record over an engine-state type.
* Ambient effects (`Math.random() < 0.2`, `new Date()`) are passed in as
  explicit parameters (`rand20 : Bool`, `now : Nat`).
-/

namespace ChessGuerilla

/-- JS `Math.round`: rounds half-up (towards positive infinity). -/
def jsRound (q : ℚ) : ℤ := ⌊q + 1/2⌋

/-- A JS value that is either a `Date` (epoch milliseconds) or a string.
`JSON.stringify` turns `Date` objects into their ISO text, so after a
round-trip the same field can hold a plain string.  The ISO-8601 text is
abstracted to a decimal rendering of the millisecond value; no theorem
depends on its exact characters, only on the `date` / `str` distinction. -/
inductive JsTime where
  | date (ms : Nat)
  | str (s : String)
deriving DecidableEq

/-- Abstraction of `Date.prototype.toISOString`. -/
def isoString (ms : Nat) : String := toString ms

/-- Abstraction of the millisecond value recovered by `new Date(isoText)`. -/
def parseIso (s : String) : Nat := s.toNat?.getD 0

/-- Effect of `JSON.stringify` followed by `JSON.parse` on a Date-valued
field: the `Date` becomes its ISO string. -/
def serializeTime : JsTime → JsTime
  | .date ms => .str (isoString ms)
  | .str s => .str s

/-- JS `new Date(x)` applied to a Date or to an ISO string (as in
`importUserProgress`). -/
def jsNewDate : JsTime → JsTime
  | .date ms => .date ms
  | .str s => .date (parseIso s)

/-- JS `a || b` where `a` is an optional string (`undefined`, `null` and
`""` are falsy). -/
def jsOrStr (a : Option String) (b : String) : String :=
  match a with
  | none => b
  | some s => if s = "" then b else s

/-- JS `a || b` keeping the optional shape (used for `currentFocus`). -/
def jsOrOptStr (a b : Option String) : Option String :=
  match a with
  | none => b
  | some s => if s = "" then b else some s

/-- JS `a || b` on two plain strings. -/
def jsOrStrStr (a b : String) : String := if a = "" then b else a

/-- JS `a || b` on numbers modelled as `Nat` (`0` is falsy). -/
def jsOrNat (a b : Nat) : Nat := if a = 0 then b else a

/-- JS `a || b` where `a` is an optional integer (`0` is falsy). -/
def jsOrInt (a : Option Int) (b : Int) : Int :=
  match a with
  | none => b
  | some v => if v = 0 then b else v

/-- JS `a || b` where `a` is an optional rational (`0` is falsy). -/
def jsOrQ (a : Option ℚ) (b : ℚ) : ℚ :=
  match a with
  | none => b
  | some v => if v = 0 then b else v

/-! ## Data model: puzzles (src/src/js/education/puzzleGenerator / puzzleTraps) -/

/-- `trapInfo` decoration attached by `PuzzleTraps.enhancePuzzleWithTraps`. -/
structure TrapInfo where
  name : String
  trapMove : String
  correctDefense : String
  followUp : String
  explanation : String
deriving DecidableEq

/-- One entry of `alternativePaths`. -/
structure AltPath where
  move : String
  response : String
  evaluation : String
  explanation : String
deriving DecidableEq

/-- A puzzle record as produced by the puzzle generator, with the optional
fields used by `PuzzleCore` and `UserSkillProfile`.  `hintCount` is the
runtime hint counter the source stores on the puzzle object itself. -/
structure Puzzle where
  id : String
  fen : String
  moves : List String
  orientation : String
  theme : Option String := none
  category : Option String := none
  difficulty : Option String := none
  rating : Option Int := none
  expectedTime : Option ℚ := none
  objective : Option String := none
  explanation : Option String := none
  hasTrap : Bool := false
  trapInfo : Option TrapInfo := none
  alternativePaths : Option (List AltPath) := none
  hintCount : Option Nat := none
deriving DecidableEq

/-! ## UserSkillProfile (src/unnamed/part_001) -/

/-- The five rating categories, each starting at 1200. -/
structure Ratings where
  overall : Int
  tactics : Int
  strategy : Int
  endgame : Int
  openings : Int
deriving DecidableEq

/-- `this.ratings[category]` dynamic lookup. -/
def Ratings.lookup (r : Ratings) : String → Option Int
  | "overall" => some r.overall
  | "tactics" => some r.tactics
  | "strategy" => some r.strategy
  | "endgame" => some r.endgame
  | "openings" => some r.openings
  | _ => none

/-- `this.ratings[category] += d` dynamic update. -/
def Ratings.addCat (r : Ratings) (c : String) (d : Int) : Ratings :=
  if c = "overall" then { r with overall := r.overall + d }
  else if c = "tactics" then { r with tactics := r.tactics + d }
  else if c = "strategy" then { r with strategy := r.strategy + d }
  else if c = "endgame" then { r with endgame := r.endgame + d }
  else if c = "openings" then { r with openings := r.openings + d }
  else r

/-- Per-theme performance statistics. -/
structure ThemeStats where
  attempts : Nat
  correct : Nat
  avgTime : ℚ
  lastAttempt : Option JsTime
deriving DecidableEq

/-- An entry of the derived `struggledThemes` list. -/
structure StruggledTheme where
  theme : String
  successRate : ℚ
  attempts : Nat
deriving DecidableEq

/-- The `themePerformance` object: a string-keyed map modelled as an
insertion-ordered association list (JS object key order). -/
def tpFind (tp : List (String × ThemeStats)) (k : String) : Option ThemeStats :=
  (tp.find? (fun e => e.1 = k)).map (·.2)

/-- Overwrite the value at an existing key, preserving key order. -/
def tpSet (tp : List (String × ThemeStats)) (k : String) (v : ThemeStats) :
    List (String × ThemeStats) :=
  tp.map (fun e => if e.1 = k then (k, v) else e)

/-- Mutable state of a `UserSkillProfile` instance. -/
structure ProfileState where
  userId : String
  ratings : Ratings
  themePerformance : List (String × ThemeStats)
  solvedPuzzles : List String
  struggledThemes : List StruggledTheme
  currentFocus : Option String
  currentLevel : String
  lastRatingChange : Int
deriving DecidableEq

/-- The `UserSkillProfile` constructor. -/
def UserSkillProfile.new (userId : String) : ProfileState where
  userId := userId
  ratings := ⟨1200, 1200, 1200, 1200, 1200⟩
  themePerformance := []
  solvedPuzzles := []
  struggledThemes := []
  currentFocus := none
  currentLevel := "Beginner"
  lastRatingChange := 0

/-- `updateStruggledThemes`: themes with at least 3 attempts and success
rate below one half, sorted ascending by success rate (JS `sort` with a
numeric comparator is stable; `mergeSort` is the stable sort here). -/
def computeStruggled (tp : List (String × ThemeStats)) : List StruggledTheme :=
  let raw := (tp.filter
      (fun e => 3 ≤ e.2.attempts && ((e.2.correct : ℚ) / (e.2.attempts : ℚ) < 1/2))).map
    (fun e => StruggledTheme.mk e.1 ((e.2.correct : ℚ) / (e.2.attempts : ℚ)) e.2.attempts)
  raw.mergeSort (fun a b => a.successRate ≤ b.successRate)

/-- `updateSkillLevel` rating ladder. -/
def levelFor (rating : Int) : String :=
  if rating < 1200 then "Beginner"
  else if rating < 1400 then "Intermediate"
  else if rating < 1600 then "Advanced"
  else if rating < 1800 then "Expert"
  else if rating < 2000 then "Master"
  else "Grandmaster"

/-- `Object.entries(themePerformance)` mapped to (theme, attempts), sorted
ascending by attempts (stable). -/
def sortByAttempts (tp : List (String × ThemeStats)) : List (String × Nat) :=
  (tp.map (fun e => (e.1, e.2.attempts))).mergeSort (fun a b => a.2 ≤ b.2)

/-- Truthiness of `this.currentFocus` (`null`/`""` falsy). -/
def focusTruthy : Option String → Bool
  | none => false
  | some s => s ≠ ""

/-- `updateFocus`: worst struggled theme, else least practiced theme, else
the default focus string. -/
def updateFocus (struggled : List StruggledTheme)
    (tp : List (String × ThemeStats)) : Option String :=
  match struggled with
  | s :: _ => some s.theme
  | [] =>
    match sortByAttempts tp with
    | t :: _ => some t.1
    | [] => some "tactical patterns"

/-- `UserSkillProfile.updateAfterPuzzle(puzzle, correct, timeSpent,
hintsUsed)`.  `rand20` is the sampled outcome of `Math.random() < 0.2` and
`now` the current time, both ambient in the source.  Returns the rating
change together with the updated profile. -/
def UserSkillProfile.updateAfterPuzzle (prof : ProfileState) (puzzle : Puzzle)
    (correct : Bool) (timeSpent : ℚ) (hintsUsed : Nat) (rand20 : Bool)
    (now : Nat) : Int × ProfileState :=
  -- Record puzzle in solved list
  let solved := if prof.solvedPuzzles.contains puzzle.id then prof.solvedPuzzles
    else prof.solvedPuzzles ++ [puzzle.id]
  -- Update theme performance (entry created lazily, then mutated)
  let theme := jsOrStr puzzle.theme "general"
  let tp1 := if (tpFind prof.themePerformance theme).isSome then prof.themePerformance
    else prof.themePerformance ++ [(theme, ⟨0, 0, 0, none⟩)]
  let s0 := (tpFind tp1 theme).getD ⟨0, 0, 0, none⟩
  let attempts1 := s0.attempts + 1
  let correct1 := s0.correct + (if correct then 1 else 0)
  let avg1 := (s0.avgTime * ((attempts1 - 1 : Nat) : ℚ) + timeSpent) / (attempts1 : ℚ)
  let tp2 := tpSet tp1 theme ⟨attempts1, correct1, avg1, some (.date now)⟩
  -- Calculate rating change
  let baseChange : ℚ := if correct then 10 else -5
  let difficultyDelta : Int := jsOrInt puzzle.rating 1500 - prof.ratings.overall
  let difficultyFactor : ℚ := 1 + (difficultyDelta : ℚ) / 400
  let expectedTime := jsOrQ puzzle.expectedTime 60
  let timeFactor : ℚ := if correct then max (1/2) (min (3/2) (expectedTime / timeSpent)) else 1
  let hintFactor : ℚ := if 0 < hintsUsed then max (1/5) (1 - (hintsUsed : ℚ) * (1/5)) else 1
  let ratingChange := jsRound (baseChange * difficultyFactor * timeFactor * hintFactor)
  -- Update overall rating, then the category rating if that key is truthy
  let ratings1 := { prof.ratings with overall := prof.ratings.overall + ratingChange }
  let category := jsOrStr puzzle.category "tactics"
  let ratings2 := match ratings1.lookup category with
    | some v => if v ≠ 0 then ratings1.addCat category ratingChange else ratings1
    | none => ratings1
  -- Derived fields
  let struggled := computeStruggled tp2
  let level := levelFor ratings2.overall
  let focus := if !focusTruthy prof.currentFocus || rand20 then updateFocus struggled tp2
    else prof.currentFocus
  (ratingChange,
   { prof with
      solvedPuzzles := solved
      themePerformance := tp2
      ratings := ratings2
      struggledThemes := struggled
      currentLevel := level
      currentFocus := focus
      lastRatingChange := ratingChange })

/-! ### getRecommendedThemes -/

/-- The shared loop shape of the struggled-themes and least-practiced
passes of `getRecommendedThemes`: skip duplicates, push, break once
`count` entries are reached. -/
def recLoop (count : Nat) : List String → List String → List String
  | recs, [] => recs
  | recs, t :: ts =>
    if recs.contains t then recLoop count recs ts
    else if count ≤ recs.length + 1 then recs ++ [t]
    else recLoop count (recs ++ [t]) ts

/-- The final `while` pass over the fixed general-themes list: the length
guard is re-checked before every element. -/
def fallbackLoop (count : Nat) : List String → List String → List String
  | recs, [] => recs
  | recs, g :: gs =>
    if recs.length < count then
      fallbackLoop count (if recs.contains g then recs else recs ++ [g]) gs
    else recs

/-- The fixed fallback list of general themes. -/
def generalThemes : List String := ["pins", "forks", "discovered attacks", "removing the defender"]

/-- `UserSkillProfile.getRecommendedThemes(count)`. -/
def UserSkillProfile.getRecommendedThemes (prof : ProfileState) (count : Nat) :
    List String :=
  let recs0 : List String :=
    if focusTruthy prof.currentFocus then [prof.currentFocus.getD ""] else []
  let recs1 := recLoop count recs0 (prof.struggledThemes.map (·.theme))
  let recs2 := if recs1.length < count then
      recLoop count recs1 ((sortByAttempts prof.themePerformance).map (·.1))
    else recs1
  let recs3 := fallbackLoop count recs2 generalThemes
  recs3.take count

/-! ## SkillTracker (src/src/js/education/skillTracker.js, first section) -/

/-- A lesson of the fixed learning path. -/
structure Lesson where
  id : String
  title : String
  themes : List String
  difficulty : String
  requiredRating : Int
  puzzleCount : Nat
deriving DecidableEq

/-- A milestone record; `achieved` / `dateAchieved` are the only mutable
fields. -/
structure Milestone where
  rating : Int
  title : String
  description : String
  achieved : Bool := false
  dateAchieved : Option JsTime := none
deriving DecidableEq

/-- The fixed curriculum built by `initializeLearningPath`. -/
def defaultLearningPath : List Lesson :=
  [⟨"basic-tactics-1", "Introduction to Basic Tactics", ["pins", "forks"], "easy", 0, 5⟩,
   ⟨"opening-principles-1", "Opening Principles: Control the Center",
     ["center control", "piece development"], "easy", 1000, 5⟩,
   ⟨"basic-tactics-2", "Discovered Attacks and Skewers",
     ["discovered attacks", "skewers"], "easy", 1050, 5⟩,
   ⟨"middlegame-1", "Attacking the King",
     ["attacking the king", "piece coordination"], "medium", 1300, 5⟩,
   ⟨"tactics-intermediate-1", "Double Attacks and Deflection",
     ["double attacks", "deflection"], "medium", 1350, 5⟩,
   ⟨"endgame-1", "Basic Endgame Principles",
     ["king and pawn", "rook endgames"], "medium", 1400, 5⟩,
   ⟨"tactics-advanced-1", "Zwischenzug and Interference",
     ["zwischenzug", "interference"], "hard", 1600, 5⟩,
   ⟨"advanced-endgame-1", "Complex Endgame Techniques",
     ["fortress positions", "zugzwang positions"], "hard", 1700, 5⟩,
   ⟨"positional-mastery", "Positional Chess Mastery",
     ["prophylaxis", "piece coordination"], "expert", 1800, 5⟩]

/-- The fixed milestone catalogue built by `initializeLearningPath`. -/
def defaultMilestones : List Milestone :=
  [⟨1200, "Chess Apprentice", "You've mastered the basic tactics!", false, none⟩,
   ⟨1400, "Chess Tactician", "You're skilled at finding tactical opportunities.", false, none⟩,
   ⟨1600, "Chess Strategist", "You understand deeper positional concepts.", false, none⟩,
   ⟨1800, "Chess Expert", "You can handle complex positions with ease.", false, none⟩,
   ⟨2000, "Chess Master", "Your chess understanding is exceptional!", false, none⟩]

/-- Mutable state of a `SkillTracker` instance. -/
structure SkillTrackerState where
  userId : String
  skillProfile : ProfileState
  learningPath : List Lesson
  currentLessonIndex : Nat
  completedLessons : List String
  milestones : List Milestone
deriving DecidableEq

/-- The `SkillTracker` constructor. -/
def SkillTracker.new (userId : String) : SkillTrackerState where
  userId := userId
  skillProfile := UserSkillProfile.new userId
  learningPath := defaultLearningPath
  currentLessonIndex := 0
  completedLessons := []
  milestones := defaultMilestones

/-- First index of `path` (from `start`) whose lesson is incomplete and
within the user's rating. -/
def firstAvailableLesson (completed : List String) (overall : Int) :
    List Lesson → Nat → Option (Nat × Lesson)
  | [], _ => none
  | l :: ls, i =>
    if !completed.contains l.id && l.requiredRating ≤ overall then some (i, l)
    else firstAvailableLesson completed overall ls (i + 1)

/-- Highest index of `path` whose required rating is within reach
(the second, downward scan of `getNextLesson`). -/
def lastReachableLesson (overall : Int) :
    List Lesson → Nat → Option (Nat × Lesson) → Option (Nat × Lesson)
  | [], _, acc => acc
  | l :: ls, i, acc =>
    lastReachableLesson overall ls (i + 1)
      (if l.requiredRating ≤ overall then some (i, l) else acc)

/-- `SkillTracker.getNextLesson()`: returns the chosen lesson and the new
`currentLessonIndex`. -/
def SkillTracker.getNextLesson (st : SkillTrackerState) : Option Lesson × Nat :=
  match firstAvailableLesson st.completedLessons st.skillProfile.ratings.overall
      st.learningPath 0 with
  | some (i, l) => (some l, i)
  | none =>
    match lastReachableLesson st.skillProfile.ratings.overall st.learningPath 0 none with
    | some (i, l) => (some l, i)
    | none => (st.learningPath.get? 0, 0)

/-- `SkillTracker.checkForNewMilestones()`: marks every milestone whose
threshold the current rating meets and that is not yet achieved; returns
the newly achieved ones (in catalogue order) and the updated catalogue. -/
def checkForNewMilestones (overall : Int) (ms : List Milestone) (now : Nat) :
    List Milestone × List Milestone :=
  let hit := fun (m : Milestone) => m.rating ≤ overall && !m.achieved
  let mark := fun (m : Milestone) =>
    { m with achieved := true, dateAchieved := some (.date now) }
  ((ms.filter hit).map mark, ms.map (fun m => if hit m then mark m else m))

/-- Lesson-completion test of `SkillTracker.updateAfterPuzzle`: every theme
of the lesson has at least 5 attempts and success rate at least 0.6. -/
def lessonThemesSolved (tp : List (String × ThemeStats)) (l : Lesson) : Bool :=
  l.themes.all (fun th =>
    match tpFind tp th with
    | none => false
    | some s => 5 ≤ s.attempts && ((3 : ℚ)/5 ≤ (s.correct : ℚ) / (s.attempts : ℚ)))

/-- The record returned by `SkillTracker.updateAfterPuzzle`. -/
structure TrackerUpdateResult where
  newRating : Int
  ratingChange : Int
  achievedMilestones : List Milestone
  lessonCompleted : Bool
  nextLesson : Option Lesson
  recommendedThemes : List String
deriving DecidableEq

/-- `SkillTracker.updateAfterPuzzle(puzzle, correct, timeSpent, hintsUsed)`;
`rand20` and `now` are the ambient random sample and clock passed through
to the profile update and milestone timestamps. -/
def SkillTracker.updateAfterPuzzle (st : SkillTrackerState) (puzzle : Puzzle)
    (correct : Bool) (timeSpent : ℚ) (hintsUsed : Nat) (rand20 : Bool)
    (now : Nat) : TrackerUpdateResult × SkillTrackerState :=
  let prof1 :=
    (UserSkillProfile.updateAfterPuzzle st.skillProfile puzzle correct timeSpent
      hintsUsed rand20 now).2
  let msPair := checkForNewMilestones prof1.ratings.overall st.milestones now
  let achieved := msPair.1
  let ms1 := msPair.2
  let currentLesson := st.learningPath.get? st.currentLessonIndex
  let lessonCompleted :=
    match currentLesson with
    | none => false
    | some l => !st.completedLessons.contains l.id
        && lessonThemesSolved prof1.themePerformance l
  let completed1 :=
    match currentLesson with
    | none => st.completedLessons
    | some l => if lessonCompleted then st.completedLessons ++ [l.id]
        else st.completedLessons
  let st1 := { st with
    skillProfile := prof1
    milestones := ms1
    completedLessons := completed1 }
  let nextPair :=
    if lessonCompleted then SkillTracker.getNextLesson st1
    else (none, st1.currentLessonIndex)
  let nextLesson := nextPair.1
  let st2 := { st1 with currentLessonIndex := nextPair.2 }
  ({ newRating := prof1.ratings.overall
     ratingChange := jsOrInt (some prof1.lastRatingChange) 0
     achievedMilestones := achieved
     lessonCompleted := lessonCompleted
     nextLesson := nextLesson
     recommendedThemes := UserSkillProfile.getRecommendedThemes prof1 3 }, st2)

/-! ### Export / import of user progress

`exportUserProgress` produces `JSON.stringify` of an object literal;
`importUserProgress` parses and merges field by field.  The JSON text is
not modelled: `ExportData` is the object structure, and
`stringifyParseExport` is the composite effect of `JSON.stringify`
followed by `JSON.parse` on that structure — the identity except that
`Date` values become their ISO strings (`serializeTime`). -/

/-- The `skillProfile` sub-object of the exported progress. -/
structure ExportProfile where
  ratings : Ratings
  themePerformance : List (String × ThemeStats)
  solvedPuzzles : List String
  struggledThemes : List StruggledTheme
  currentFocus : Option String
  currentLevel : String
deriving DecidableEq

/-- The object serialized by `exportUserProgress`. -/
structure ExportData where
  userId : String
  skillProfile : ExportProfile
  completedLessons : List String
  currentLessonIndex : Nat
  milestones : List Milestone
deriving DecidableEq

/-- `SkillTracker.exportUserProgress()` (the object before serialization). -/
def SkillTracker.exportUserProgress (st : SkillTrackerState) : ExportData where
  userId := st.userId
  skillProfile :=
    { ratings := st.skillProfile.ratings
      themePerformance := st.skillProfile.themePerformance
      solvedPuzzles := st.skillProfile.solvedPuzzles
      struggledThemes := st.skillProfile.struggledThemes
      currentFocus := st.skillProfile.currentFocus
      currentLevel := st.skillProfile.currentLevel }
  completedLessons := st.completedLessons
  currentLessonIndex := st.currentLessonIndex
  milestones := st.milestones.filter (·.achieved)

/-- Effect of `JSON.parse(JSON.stringify(¤))` on the exported structure:
every `Date` becomes its ISO string; everything else round-trips as is. -/
def stringifyParseExport (e : ExportData) : ExportData :=
  { e with
    skillProfile := { e.skillProfile with
      themePerformance := e.skillProfile.themePerformance.map
        (fun p => (p.1, { p.2 with lastAttempt := p.2.lastAttempt.map serializeTime })) }
    milestones := e.milestones.map
      (fun m => { m with dateAchieved := m.dateAchieved.map serializeTime }) }

/-- Update the first element satisfying the predicate (JS `Array.find`
followed by in-place mutation). -/
def updateFirst (p : α → Bool) (f : α → α) : List α → List α
  | [] => []
  | x :: xs => if p x then f x :: xs else x :: updateFirst p f xs

/-- The milestone-import loop of `importUserProgress`. -/
def importMilestones (imported : List Milestone) (ms : List Milestone) :
    List Milestone :=
  imported.foldl
    (fun acc am => updateFirst (fun m => m.rating = am.rating)
      (fun m => { m with
        achieved := true
        dateAchieved := some (jsNewDate ((am.dateAchieved).getD (.str ""))) }) acc)
    ms

/-- `SkillTracker.importUserProgress(progressJson)` after a successful
`JSON.parse` (a malformed-JSON outcome cannot arise from a structured
`ExportData` value).  Fields are merged with the JS `||` fallbacks of the
source; arrays and objects are always truthy in JS, so those assignments
are unconditional. -/
def SkillTracker.importUserProgress (st : SkillTrackerState)
    (progress : ExportData) : Bool × SkillTrackerState :=
  if progress.userId = st.userId then
    let prof := { st.skillProfile with
      ratings := progress.skillProfile.ratings
      themePerformance := progress.skillProfile.themePerformance
      solvedPuzzles := progress.skillProfile.solvedPuzzles
      struggledThemes := progress.skillProfile.struggledThemes
      currentFocus := jsOrOptStr progress.skillProfile.currentFocus
        st.skillProfile.currentFocus
      currentLevel := jsOrStrStr progress.skillProfile.currentLevel
        st.skillProfile.currentLevel }
    (true,
     { st with
        skillProfile := prof
        completedLessons := progress.completedLessons
        currentLessonIndex := jsOrNat progress.currentLessonIndex st.currentLessonIndex
        milestones := importMilestones progress.milestones st.milestones })
  else (false, st)

/-! ## PuzzleCore (src/src/js/education/skillTracker.js, second section)

The chess.js rules engine is an external collaborator (spec §1, §6); it is
modelled as an abstract record of operations over an engine-state type
`σ`.  The chess.js move record returned by `move` is modelled by the move
descriptor that was submitted. -/

/-- The argument object of chess.js `move({from, to, promotion})`. -/
structure EngineMove where
  fromSq : String
  toSq : String
  promo : Option String
deriving DecidableEq

/-- The piece record returned by chess.js `get(square)`. -/
structure EnginePiece where
  ptype : String
  color : String
deriving DecidableEq

/-- The rules-engine collaborator interface (spec §6): `move` returns the
successor state on a legal move and `none` on an illegal one. -/
structure RulesEngine (σ : Type) where
  move : σ → EngineMove → Option σ
  fen : σ → String
  undo : σ → σ
  game_over : σ → Bool
  turn : σ → String
  get : σ → String → Option EnginePiece
  load : σ → String → σ

/-- Mutable state of a `PuzzleCore` instance. -/
structure PCState (σ : Type) where
  currentPuzzle : Option Puzzle
  puzzleHistory : List (String × String × List String × Nat)
  moveHistory : List String
  isEvaluating : Bool
  engine : σ

/-- The result object of `evaluateMove`.  Fields absent on a given JS
return path keep their defaults (`completed` absent ≡ `false`,
`opponentMove` absent ≡ `none`); the illegal-move result only carries
`valid` and `message`. -/
structure EvalResult where
  valid : Bool
  message : String
  isCorrect : Bool := false
  isTrap : Bool := false
  trapInfo : Option TrapInfo := none
  alternativePath : Option AltPath := none
  position : Option String := none
  move : Option EngineMove := none
  gameOver : Bool := false
  completed : Bool := false
  opponentMove : Option EngineMove := none
deriving DecidableEq

/-- The record returned by `initializePuzzle`. -/
structure InitResult where
  position : String
  orientation : String
  turn : String
deriving DecidableEq

/-- `PuzzleCore.initializePuzzle(puzzle)`. -/
def PuzzleCore.initializePuzzle (E : RulesEngine σ) (st : PCState σ)
    (puzzle : Puzzle) : InitResult × PCState σ :=
  let eng := E.load st.engine puzzle.fen
  ({ position := puzzle.fen, orientation := puzzle.orientation, turn := E.turn eng },
   { st with
     currentPuzzle := some puzzle
     moveHistory := []
     isEvaluating := false
     engine := eng })

/-- The standard notation `evaluateMove` builds for a submitted move:
`from + to + (promotion || '')`, `promo` being the promotion parameter
after its `'q'` default. -/
def buildMoveCode (fromSq toSq promo : String) : String :=
  fromSq ++ toSq ++ (if promo = "" then "" else promo)

/-- The part of `evaluateMove` after the engine accepted the move as
legal: `promo` is the promotion parameter after its `'q'` default, `eng2`
the engine state after the user's move.  `now` stamps a solved
puzzle-history entry. -/
def PuzzleCore.evalLegal (E : RulesEngine σ) (now : Nat) (st : PCState σ)
    (puzzle : Puzzle) (fromSq toSq promo : String) (eng2 : σ) :
    Option EvalResult × PCState σ :=
  -- Format move in the standard notation: from + to + (promotion || '')
  let moveCode := buildMoveCode fromSq toSq promo
  -- Record the move
  let mh := st.moveHistory ++ [moveCode]
  -- Compare against the expected solution move at this index
  let expectedMove := puzzle.moves.get? (mh.length - 1)
  let isCorrect := expectedMove = some moveCode
  -- Known trap?
  let trap := match puzzle.trapInfo with
    | some ti => if puzzle.hasTrap && moveCode = ti.trapMove then some ti else none
    | none => none
  -- Alternative paths
  let alt := match puzzle.alternativePaths with
    | some paths => paths.find? (fun path => path.move = moveCode)
    | none => none
  let result : EvalResult :=
    { valid := true
      message := ""
      isCorrect := isCorrect
      isTrap := trap.isSome
      trapInfo := trap
      alternativePath := alt
      position := some (E.fen eng2)
      move := some ⟨fromSq, toSq, some promo⟩
      gameOver := E.game_over eng2 }
  if isCorrect then
    if puzzle.moves.length ≤ mh.length then
      -- Correct move and puzzle completed
      (some { result with completed := true, message := "Puzzle solved correctly!" },
       { st with
         moveHistory := mh
         engine := eng2
         isEvaluating := false
         puzzleHistory := st.puzzleHistory ++ [(puzzle.id, "solved", mh, now)] })
    else
      -- Correct move, puzzle continues: play the scripted opponent reply
      match puzzle.moves.get? mh.length with
      | some nextMove =>
        let nextFrom := nextMove.take 2
        let nextTo := (nextMove.drop 2).take 2
        let nextPromotion := if 4 < nextMove.length then some (nextMove.drop 4) else none
        let oppDescr : EngineMove := ⟨nextFrom, nextTo, nextPromotion⟩
        let (eng3, oppMove) := match E.move eng2 oppDescr with
          | some e => (e, some oppDescr)
          | none => (eng2, none)
        (some { result with message := "Correct move! Continue..."
                            opponentMove := oppMove
                            position := some (E.fen eng3) },
         { st with
           moveHistory := mh ++ [nextMove]
           engine := eng3
           isEvaluating := false })
      | none =>
        (some { result with message := "Correct move! Continue..." },
         { st with moveHistory := mh, engine := eng2, isEvaluating := false })
  else
    match trap with
    | none =>
      -- Incorrect (non-trap): undo the engine move and pop the history
      (some { result with message := "Not the best move. Try again." },
       { st with
         moveHistory := mh.dropLast
         engine := E.undo eng2
         isEvaluating := false })
    | some ti =>
      -- Trap move: kept on the board
      (some { result with message := "You fell for the " ++ ti.name ++ " trap!" },
       { st with moveHistory := mh, engine := eng2, isEvaluating := false })

/-- `PuzzleCore.evaluateMove(from, to, promotion = 'q')`.  `promotion =
none` models the argument being omitted / `undefined`, which triggers the
JS `'q'` default. -/
def PuzzleCore.evaluateMove (E : RulesEngine σ) (now : Nat) (st : PCState σ)
    (fromSq toSq : String) (promotion : Option String) :
    Option EvalResult × PCState σ :=
  match st.currentPuzzle with
  | none => (none, st)
  | some puzzle =>
    if st.isEvaluating then (none, st)
    else
      let promo := promotion.getD "q"
      let st1 := { st with isEvaluating := true }
      match E.move st1.engine ⟨fromSq, toSq, some promo⟩ with
      | none =>
        (some { valid := false, message := "Illegal move" },
         { st1 with isEvaluating := false })
      | some eng2 => PuzzleCore.evalLegal E now st1 puzzle fromSq toSq promo eng2

/-- `PuzzleCore.resetPuzzle()`. -/
def PuzzleCore.resetPuzzle (E : RulesEngine σ) (st : PCState σ) :
    Option InitResult × PCState σ :=
  match st.currentPuzzle with
  | none => (none, st)
  | some puzzle =>
    let pair := PuzzleCore.initializePuzzle E st puzzle
    (some pair.1, pair.2)

/-- `PuzzleCore.getPieceName(pieceType)`. -/
def PuzzleCore.getPieceName (pieceType : String) : String :=
  if pieceType = "p" then "pawn"
  else if pieceType = "n" then "knight"
  else if pieceType = "b" then "bishop"
  else if pieceType = "r" then "rook"
  else if pieceType = "q" then "queen"
  else if pieceType = "k" then "king"
  else "piece"

/-- `PuzzleCore.getSquareDescription(square)`. -/
def PuzzleCore.getSquareDescription (square : String) : String :=
  let file := square.take 1
  let rank := (square.drop 1).take 1
  let area :=
    if file = "a" || file = "b" || file = "c" then "queenside"
    else if file = "f" || file = "g" || file = "h" then "kingside"
    else "center"
  if rank = "1" || rank = "2" then area ++ " back rank"
  else if rank = "7" || rank = "8" then area ++ " front rank"
  else if rank = "4" || rank = "5" then area ++ " middle"
  else area

/-- A hint record returned by `getHint`. -/
structure Hint where
  type : String
  message : String
  highlightSquares : List String
deriving DecidableEq

/-- `PuzzleCore.getHint()`: three escalating hint levels selected by
`min(hintCount, 2)` using the count before it is incremented; the counter
lives on the puzzle object itself. -/
def PuzzleCore.getHint (E : RulesEngine σ) (st : PCState σ) :
    Option Hint × PCState σ :=
  match st.currentPuzzle with
  | none => (none, st)
  | some puzzle =>
    let expectedMoveIndex := st.moveHistory.length
    if puzzle.moves.length ≤ expectedMoveIndex then
      (some ⟨"info", "You've completed all the moves for this puzzle!", []⟩, st)
    else
      let expectedMove := (puzzle.moves.get? expectedMoveIndex).getD ""
      let fromSquare := expectedMove.take 2
      let toSquare := (expectedMove.drop 2).take 2
      match E.get st.engine fromSquare with
      | none =>
        (some ⟨"error", "Hint error: Could not find piece at expected position", []⟩, st)
      | some piece =>
        let hints : List Hint :=
          [⟨"vague", "Look for a move with your "
              ++ PuzzleCore.getPieceName piece.ptype ++ ".", []⟩,
           ⟨"moderate", "Consider moving a piece from the "
              ++ PuzzleCore.getSquareDescription fromSquare ++ " area.", [fromSquare]⟩,
           ⟨"specific", "Try moving your " ++ PuzzleCore.getPieceName piece.ptype
              ++ " from " ++ fromSquare ++ " to " ++ toSquare ++ ".",
            [fromSquare, toSquare]⟩]
        let hintLevel := min (puzzle.hintCount.getD 0) 2
        let puzzle1 := { puzzle with hintCount := some (puzzle.hintCount.getD 0 + 1) }
        (some (hints.getD hintLevel ⟨"", "", []⟩),
         { st with currentPuzzle := some puzzle1 })

/-! ### A concrete toy rules engine for witnesses

Claims about `PuzzleCore` hold for any collaborator satisfying the
documented engine contract; the witnesses instantiate them with this
executable engine whose state is the loaded position plus the list of
moves played.  Every syntactically submitted move is legal, `undo` pops
the last move, and `fen` serializes the state injectively. -/

/-- Toy engine state: loaded position text and moves played since. -/
structure ToyState where
  base : String
  played : List EngineMove
deriving DecidableEq

/-- Serialization of one move for the toy `fen`. -/
def toyMoveText (m : EngineMove) : String :=
  m.fromSq ++ m.toSq ++ (m.promo.getD "")

/-- The toy rules engine. -/
def toyEngine : RulesEngine ToyState where
  move s m := some ⟨s.base, s.played ++ [m]⟩
  fen s := s.base ++ " " ++ String.intercalate " " (s.played.map toyMoveText)
  undo s := ⟨s.base, s.played.dropLast⟩
  game_over _ := false
  turn _ := "w"
  get _ _ := some ⟨"p", "w"⟩
  load _ f := ⟨f, []⟩

/-- The `PuzzleCore` constructor (fresh instance around a rules engine). -/
def PuzzleCore.new (eng : σ) : PCState σ :=
  { currentPuzzle := none, puzzleHistory := [], moveHistory := [],
    isEvaluating := false, engine := eng }

/-- The toy engine's `new Chess()` start state. -/
def toyInit : ToyState := ⟨"start", []⟩

/-! ### Concrete instances used by witnesses and counterexamples -/

/-- The sample pin puzzle of `initializePuzzleDatabase`, the spec scenario
for the rating formula (rating 1500, expected time 60 for the C1 numbers). -/
def C1puzzle : Puzzle :=
  { id := "pin-easy-1"
    fen := "r1bqkbnr/ppp2ppp/2np4/4p3/2B1P3/5N2/PPPP1PPP/RNBQK2R w KQkq - 0 4"
    moves := ["c4f7", "e8f7", "d1f3", "f7e8", "f3f7"]
    orientation := "white"
    theme := some "pins"
    category := some "tactics"
    rating := some 1500
    expectedTime := some 60 }

/-- One call of `SkillTracker.updateAfterPuzzle`, with the ambient random
sample and clock made explicit. -/
structure PuzzleAttempt where
  puzzle : Puzzle
  correct : Bool
  timeSpent : ℚ
  hintsUsed : Nat
  rand20 : Bool
  now : Nat

/-- A sequence of `SkillTracker.updateAfterPuzzle` calls, keeping only the
evolving tracker state. -/
def runTracker (st : SkillTrackerState) (calls : List PuzzleAttempt) :
    SkillTrackerState :=
  calls.foldl
    (fun s a => (SkillTracker.updateAfterPuzzle s a.puzzle a.correct a.timeSpent
      a.hintsUsed a.rand20 a.now).2) st

/-- A tracker whose first milestone (rating 1200) has been achieved. -/
def C7state : SkillTrackerState :=
  { SkillTracker.new "user-7" with
    milestones := (checkForNewMilestones 1200 defaultMilestones 5).2 }

/-- A later losing attempt that drags the rating down. -/
def C7attempt : PuzzleAttempt :=
  { puzzle := C1puzzle, correct := false, timeSpent := 30, hintsUsed := 0,
    rand20 := false, now := 7 }

/-- All theme names `getRecommendedThemes` can draw from: current focus,
struggled themes, `themePerformance` keys and the fixed fallback list. -/
def recommendPools (prof : ProfileState) : List String :=
  (if focusTruthy prof.currentFocus then [prof.currentFocus.getD ""] else []) ++
  prof.struggledThemes.map (·.theme) ++
  (sortByAttempts prof.themePerformance).map (·.1) ++ generalThemes

/-- A profile with a current focus, used by the C8 witness. -/
def C8profile : ProfileState :=
  { UserSkillProfile.new "user-8" with currentFocus := some "zugzwang" }

/-- The sample fork puzzle (rating set to the starting overall rating so
the concrete rating change stays integral). -/
def C6puzzle : Puzzle :=
  { id := "fork-medium-1", fen := "f6", moves := ["f3e5"], orientation := "white",
    theme := some "forks", category := some "tactics", rating := some 1200,
    expectedTime := some 30 }

/-- A tracker that has recorded one puzzle attempt — its theme statistics
now hold a `Date`-valued last-attempt timestamp. -/
def C6tracker : SkillTrackerState :=
  (SkillTracker.updateAfterPuzzle (SkillTracker.new "user-6") C6puzzle
    true 30 0 false 11).2

/-- The spec scenario puzzle: solution e2e4 / e7e5 / f1c4. -/
def C2puzzle : Puzzle :=
  { id := "c2-seq", fen := "startpos", moves := ["e2e4", "e7e5", "f1c4"],
    orientation := "white" }

/-- The evaluator right after initializing `C2puzzle`. -/
def C2state : PCState ToyState :=
  (PuzzleCore.initializePuzzle toyEngine (PuzzleCore.new toyInit) C2puzzle).2

/-- A plain one-move puzzle without traps. -/
def C3puzzle : Puzzle :=
  { id := "c3-plain", fen := "fen3", moves := ["c4f7"], orientation := "white" }

/-- The evaluator right after initializing `C3puzzle`. -/
def C3state : PCState ToyState :=
  (PuzzleCore.initializePuzzle toyEngine (PuzzleCore.new toyInit) C3puzzle).2

/-- The toy-engine state after playing a2a3 (with the defaulted `q`
promotion) from `C3state`. -/
def C3eng2 : ToyState := ⟨C3puzzle.fen, [⟨"a2", "a3", some "q"⟩]⟩

/-- A three-move puzzle used for the hint scenarios. -/
def C4puzzle : Puzzle :=
  { id := "c4-hints", fen := "fen4", moves := ["c4f7", "e8f7", "d1f3"],
    orientation := "white" }

/-- The evaluator right after initializing `C4puzzle`. -/
def C4start : PCState ToyState :=
  (PuzzleCore.initializePuzzle toyEngine (PuzzleCore.new toyInit) C4puzzle).2

/-- `C4start` after two hints have been requested. -/
def C4afterHints : PCState ToyState :=
  (PuzzleCore.getHint toyEngine (PuzzleCore.getHint toyEngine C4start).2).2

/-- `C4afterHints` after `resetPuzzle()`. -/
def C4afterReset : PCState ToyState :=
  (PuzzleCore.resetPuzzle toyEngine C4afterHints).2

/-- A trap record from the trap database. -/
def C5trapInfo : TrapInfo :=
  { name := "Blackburne Shilling Trap", trapMove := "f3e5",
    correctDefense := "d8e7", followUp := "e5c6",
    explanation := "Blackburne Shilling Trap. Taking the e5 pawn exposes the knight to capture." }

/-- A puzzle decorated with `C5trapInfo`. -/
def C5puzzle : Puzzle :=
  { id := "c5-trap", fen := "fen5", moves := ["d2d4"], orientation := "white",
    hasTrap := true, trapInfo := some C5trapInfo }

/-- The evaluator right after initializing `C5puzzle`. -/
def C5state : PCState ToyState :=
  (PuzzleCore.initializePuzzle toyEngine (PuzzleCore.new toyInit) C5puzzle).2

/-- The toy-engine state after playing the trap move f3e5 (with an empty
promotion argument) from `C5state`. -/
def C5eng2 : ToyState := ⟨C5puzzle.fen, [⟨"f3", "e5", some ""⟩]⟩

/-! ## Theorems

Helper lemmas come first; each claim then has exactly one theorem (plus a
witness where the theorem carries hypotheses). -/

/-- `addCat` on a category other than `"overall"` leaves `overall` alone. -/
theorem Ratings.addCat_overall (r : Ratings) (c : String) (d : Int)
    (h : c ≠ "overall") : (Ratings.addCat r c d).overall = r.overall := by
  unfold Ratings.addCat
  rw [if_neg h]
  repeat' split
  all_goals rfl

/-- C1: for every profile and inputs (with a positive time, the domain on
which rational division agrees with the JS float division of the source),
`UserSkillProfile.updateAfterPuzzle` returns
`ratingChange = round(baseChange * difficultyFactor * timeFactor * hintFactor)`
with `baseChange = +10 or -5`, `difficultyFactor = 1 + ((puzzle.rating or
1500) - overall)/400`, `timeFactor = 1` if incorrect else
`clamp(expectedTime/timeSpent, 0.5, 1.5)`, `hintFactor = 1` if no hints
else `max(0.2, 1 - 0.2*hintsUsed)`, and adds that change to
`ratings.overall` (for every category other than the `"overall"` key
itself, which the source's dynamic category update would bump twice); in
particular the spec scenario (correct, rating 1500, overall 1200,
timeSpent = expectedTime = 60, no hints) returns 18 and leaves overall at
1218. -/
theorem C1_rating_formula :
    (∀ (prof : ProfileState) (puzzle : Puzzle) (correct : Bool)
        (timeSpent : ℚ) (hintsUsed : Nat) (rand20 : Bool) (now : Nat),
      0 < timeSpent → jsOrStr puzzle.category "tactics" ≠ "overall" →
      (UserSkillProfile.updateAfterPuzzle prof puzzle correct timeSpent hintsUsed
          rand20 now).1 =
        jsRound ((if correct then (10 : ℚ) else -5) *
          (1 + ((jsOrInt puzzle.rating 1500 - prof.ratings.overall : ℤ) : ℚ) / 400) *
          (if correct then
            max (1/2) (min (3/2) (jsOrQ puzzle.expectedTime 60 / timeSpent)) else 1) *
          (if hintsUsed = 0 then 1
            else max (1/5) (1 - (hintsUsed : ℚ) * (1/5)))) ∧
      (UserSkillProfile.updateAfterPuzzle prof puzzle correct timeSpent hintsUsed
          rand20 now).2.ratings.overall =
        prof.ratings.overall +
        (UserSkillProfile.updateAfterPuzzle prof puzzle correct timeSpent hintsUsed
          rand20 now).1) ∧
    (UserSkillProfile.updateAfterPuzzle (UserSkillProfile.new "u") C1puzzle
        true 60 0 false 0).1 = 18 ∧
    (UserSkillProfile.updateAfterPuzzle (UserSkillProfile.new "u") C1puzzle
        true 60 0 false 0).2.ratings.overall = 1218 := by
  have hgen : ∀ (prof : ProfileState) (puzzle : Puzzle) (correct : Bool)
      (timeSpent : ℚ) (hintsUsed : Nat) (rand20 : Bool) (now : Nat),
      0 < timeSpent → jsOrStr puzzle.category "tactics" ≠ "overall" →
      (UserSkillProfile.updateAfterPuzzle prof puzzle correct timeSpent hintsUsed
          rand20 now).1 =
        jsRound ((if correct then (10 : ℚ) else -5) *
          (1 + ((jsOrInt puzzle.rating 1500 - prof.ratings.overall : ℤ) : ℚ) / 400) *
          (if correct then
            max (1/2) (min (3/2) (jsOrQ puzzle.expectedTime 60 / timeSpent)) else 1) *
          (if hintsUsed = 0 then 1
            else max (1/5) (1 - (hintsUsed : ℚ) * (1/5)))) ∧
      (UserSkillProfile.updateAfterPuzzle prof puzzle correct timeSpent hintsUsed
          rand20 now).2.ratings.overall =
        prof.ratings.overall +
        (UserSkillProfile.updateAfterPuzzle prof puzzle correct timeSpent hintsUsed
          rand20 now).1 := by
    intro prof puzzle correct timeSpent hintsUsed rand20 now _ hcat
    constructor
    · simp only [UserSkillProfile.updateAfterPuzzle]
      rcases Nat.eq_zero_or_pos hintsUsed with h | h
      · simp [h]
      · simp [h, Nat.pos_iff_ne_zero.mp h]
    · simp only [UserSkillProfile.updateAfterPuzzle]
      split
      · split
        · rw [Ratings.addCat_overall _ _ _ hcat]
        · rfl
      · rfl
  have h18 : (UserSkillProfile.updateAfterPuzzle (UserSkillProfile.new "u") C1puzzle
      true 60 0 false 0).1 = 18 := by
    have h := (hgen (UserSkillProfile.new "u") C1puzzle true 60 0 false 0
      (by norm_num) (by decide)).1
    rw [h]
    norm_num [jsRound, C1puzzle, UserSkillProfile.new, jsOrInt, jsOrQ]
  refine ⟨hgen, h18, ?_⟩
  have h := (hgen (UserSkillProfile.new "u") C1puzzle true 60 0 false 0
    (by norm_num) (by decide)).2
  rw [h, h18]
  rfl

/-- Witness for C1: the general formula applied at the spec scenario. -/
theorem C1_rating_formula_witness :
    (0 : ℚ) < 60 ∧ jsOrStr C1puzzle.category "tactics" ≠ "overall" ∧
    ((UserSkillProfile.updateAfterPuzzle (UserSkillProfile.new "u") C1puzzle
        true 60 0 false 0).1 =
      jsRound ((if true then (10 : ℚ) else -5) *
        (1 + ((jsOrInt C1puzzle.rating 1500 -
          (UserSkillProfile.new "u").ratings.overall : ℤ) : ℚ) / 400) *
        (if true then
          max (1/2) (min (3/2) (jsOrQ C1puzzle.expectedTime 60 / 60)) else 1) *
        (if (0 : Nat) = 0 then 1 else max (1/5) (1 - ((0 : Nat) : ℚ) * (1/5)))) ∧
      (UserSkillProfile.updateAfterPuzzle (UserSkillProfile.new "u") C1puzzle
          true 60 0 false 0).2.ratings.overall =
        (UserSkillProfile.new "u").ratings.overall +
        (UserSkillProfile.updateAfterPuzzle (UserSkillProfile.new "u") C1puzzle
          true 60 0 false 0).1) :=
  ⟨by norm_num, by decide,
   C1_rating_formula.1 (UserSkillProfile.new "u") C1puzzle true 60 0 false 0
     (by norm_num) (by decide)⟩

/-- `checkForNewMilestones` only ever sets `achieved`; a milestone already
achieved stays achieved. -/
theorem checkForNewMilestones_preserves (overall : Int) (ms : List Milestone)
    (now : Nat) (i : Nat)
    (h : (ms.get? i).map Milestone.achieved = some true) :
    (((checkForNewMilestones overall ms now).2.get? i).map Milestone.achieved) =
      some true := by
  cases hm : ms.get? i with
  | none =>
    rw [hm] at h
    exact absurd h (by simp)
  | some m =>
    have hach : m.achieved = true := by
      rw [hm] at h
      simpa using h
    simp only [checkForNewMilestones, List.get?_map, hm, Option.map_some']
    split
    · rfl
    · simpa using hach

/-- The milestone catalogue after one tracker update is exactly the one
produced by `checkForNewMilestones` on the profile's new overall rating. -/
theorem trackerUpdate_milestones (st : SkillTrackerState) (puzzle : Puzzle)
    (correct : Bool) (timeSpent : ℚ) (hintsUsed : Nat) (rand20 : Bool)
    (now : Nat) :
    (SkillTracker.updateAfterPuzzle st puzzle correct timeSpent hintsUsed
        rand20 now).2.milestones =
      (checkForNewMilestones
        (UserSkillProfile.updateAfterPuzzle st.skillProfile puzzle correct
          timeSpent hintsUsed rand20 now).2.ratings.overall
        st.milestones now).2 := rfl

/-- C7: milestone achievement is monotonic — once a milestone's `achieved`
flag is true, no subsequent sequence of `SkillTracker.updateAfterPuzzle`
calls resets it, even when the overall rating later drops below the
milestone's threshold. -/
theorem C7_milestone_monotonic (st : SkillTrackerState)
    (calls : List PuzzleAttempt) (i : Nat)
    (h : (st.milestones.get? i).map Milestone.achieved = some true) :
    ((runTracker st calls).milestones.get? i).map Milestone.achieved =
      some true := by
  induction calls generalizing st with
  | nil => exact h
  | cons a rest ih =>
    rw [runTracker, List.foldl_cons]
    apply ih
    rw [trackerUpdate_milestones]
    exact checkForNewMilestones_preserves _ _ _ _ h

/-- Witness for C7: a tracker with the 1200 milestone achieved keeps it
achieved across a losing attempt. -/
theorem C7_milestone_monotonic_witness :
    (C7state.milestones.get? 0).map Milestone.achieved = some true ∧
    ((runTracker C7state [C7attempt]).milestones.get? 0).map Milestone.achieved =
      some true :=
  ⟨by decide, C7_milestone_monotonic C7state [C7attempt] 0 (by decide)⟩

/-- `recLoop` only ever appends elements of its input list. -/
theorem recLoop_append (count : Nat) (ts : List String) :
    ∀ recs, ∃ s, recLoop count recs ts = recs ++ s ∧ ∀ x ∈ s, x ∈ ts := by
  induction ts with
  | nil => exact fun recs => ⟨[], by simp [recLoop]⟩
  | cons t ts ih =>
    intro recs
    simp only [recLoop]
    split
    · obtain ⟨s, hs, hmem⟩ := ih recs
      exact ⟨s, hs, fun x hx => List.mem_cons_of_mem _ (hmem x hx)⟩
    · split
      · exact ⟨[t], rfl, by simp⟩
      · obtain ⟨s, hs, hmem⟩ := ih (recs ++ [t])
        refine ⟨t :: s, by rw [hs, List.append_assoc]; rfl, ?_⟩
        intro x hx
        rcases hx with _ | hx
        · simp
        · exact List.mem_cons_of_mem _ (hmem x (by assumption))

/-- `recLoop` preserves freedom from duplicates (it skips elements already
present). -/
theorem recLoop_nodup (count : Nat) (ts : List String) :
    ∀ recs, recs.Nodup → (recLoop count recs ts).Nodup := by
  induction ts with
  | nil => intro recs h; simpa [recLoop] using h
  | cons t ts ih =>
    intro recs h
    simp only [recLoop]
    split
    · exact ih recs h
    · next hc =>
      have hnotin : t ∉ recs := by simpa using hc
      have hnd : (recs ++ [t]).Nodup := by simp [List.nodup_append, h, hnotin]
      split
      · exact hnd
      · exact ih _ hnd

/-- `fallbackLoop` only ever appends elements of its input list. -/
theorem fallbackLoop_append (count : Nat) (gs : List String) :
    ∀ recs, ∃ s, fallbackLoop count recs gs = recs ++ s ∧ ∀ x ∈ s, x ∈ gs := by
  induction gs with
  | nil => exact fun recs => ⟨[], by simp [fallbackLoop]⟩
  | cons g gs ih =>
    intro recs
    simp only [fallbackLoop]
    split
    · split
      · obtain ⟨s, hs, hmem⟩ := ih recs
        exact ⟨s, hs, fun x hx => List.mem_cons_of_mem _ (hmem x hx)⟩
      · obtain ⟨s, hs, hmem⟩ := ih (recs ++ [g])
        refine ⟨g :: s, by rw [hs, List.append_assoc]; rfl, ?_⟩
        intro x hx
        rcases hx with _ | hx
        · simp
        · exact List.mem_cons_of_mem _ (hmem x (by assumption))
    · exact ⟨[], by simp⟩

/-- `fallbackLoop` preserves freedom from duplicates. -/
theorem fallbackLoop_nodup (count : Nat) (gs : List String) :
    ∀ recs, recs.Nodup → (fallbackLoop count recs gs).Nodup := by
  induction gs with
  | nil => intro recs h; simpa [fallbackLoop] using h
  | cons g gs ih =>
    intro recs h
    simp only [fallbackLoop]
    split
    · split
      · exact ih recs h
      · next hc =>
        have hnotin : g ∉ recs := by simpa using hc
        exact ih _ (by simp [List.nodup_append, h, hnotin])
    · exact h

/-- `fallbackLoop` reaches `count` entries whenever its fallback list (free
of duplicates) still offers enough elements outside the accumulator. -/
theorem fallbackLoop_length (count : Nat) (gs : List String) :
    ∀ recs, gs.Nodup →
      count ≤ recs.length + (gs.filter (fun g => !recs.contains g)).length →
      count ≤ (fallbackLoop count recs gs).length := by
  induction gs with
  | nil =>
    intro recs _ h
    simpa [fallbackLoop] using h
  | cons g gs ih =>
    intro recs hnd h
    have hgnotin : g ∉ gs := (List.nodup_cons.mp hnd).1
    simp only [fallbackLoop]
    split
    · next hlt =>
      by_cases hc : recs.contains g
      · rw [if_pos hc]
        apply ih recs (List.nodup_cons.mp hnd).2
        have hgin : g ∈ recs := by simpa using hc
        have heq : (List.filter (fun x => !recs.contains x) (g :: gs)) =
            List.filter (fun x => !recs.contains x) gs := by
          simp [List.filter_cons, hgin]
        rw [heq] at h
        exact h
      · rw [if_neg hc]
        apply ih _ (List.nodup_cons.mp hnd).2
        have hgout : g ∉ recs := by simpa using hc
        have hfe : List.filter (fun x => !(recs ++ [g]).contains x) gs =
            List.filter (fun x => !recs.contains x) gs := by
          apply List.filter_congr
          intro x hx
          have hxg : x ≠ g := fun hh => hgnotin (hh ▸ hx)
          simp [hxg]
        rw [hfe]
        have hlen : (List.filter (fun x => !recs.contains x) (g :: gs)).length =
            (List.filter (fun x => !recs.contains x) gs).length + 1 := by
          simp [List.filter_cons, hgout]
        simp only [List.length_append, List.length_cons]
        omega
    · next hge => omega

/-- `getRecommendedThemes` written as its four explicit stages. -/
theorem getRecommendedThemes_eq (prof : ProfileState) (count : Nat) :
    UserSkillProfile.getRecommendedThemes prof count =
      (fallbackLoop count
        (if (recLoop count
              (if focusTruthy prof.currentFocus then [prof.currentFocus.getD ""] else [])
              (prof.struggledThemes.map (·.theme))).length < count then
          recLoop count
            (recLoop count
              (if focusTruthy prof.currentFocus then [prof.currentFocus.getD ""] else [])
              (prof.struggledThemes.map (·.theme)))
            ((sortByAttempts prof.themePerformance).map (·.1))
        else recLoop count
          (if focusTruthy prof.currentFocus then [prof.currentFocus.getD ""] else [])
          (prof.struggledThemes.map (·.theme)))
        generalThemes).take count := rfl

/-- C8: whenever at least 4 distinct theme names exist across the focus,
struggled, least-practiced and fallback pools, `getRecommendedThemes 3`
returns exactly 3 entries, free of duplicates, drawn from those pools in
priority order (a truthy `currentFocus` heads the list). -/
theorem C8_recommended_themes (prof : ProfileState)
    (h4 : 4 ≤ (recommendPools prof).dedup.length) :
    (UserSkillProfile.getRecommendedThemes prof 3).length = 3 ∧
    (UserSkillProfile.getRecommendedThemes prof 3).Nodup ∧
    (focusTruthy prof.currentFocus = true →
      (UserSkillProfile.getRecommendedThemes prof 3).head? =
        some (prof.currentFocus.getD "")) ∧
    ∀ x ∈ UserSkillProfile.getRecommendedThemes prof 3, x ∈ recommendPools prof := by
  have hGnd : generalThemes.Nodup := by decide
  rw [getRecommendedThemes_eq]
  set recs0 := (if focusTruthy prof.currentFocus then [prof.currentFocus.getD ""] else [])
    with hrecs0
  set sL := prof.struggledThemes.map (·.theme) with hsL
  set lL := (sortByAttempts prof.themePerformance).map (·.1) with hlL
  set recs1 := recLoop 3 recs0 sL with hrecs1
  set recs2 := (if recs1.length < 3 then recLoop 3 recs1 lL else recs1) with hrecs2
  set recs3 := fallbackLoop 3 recs2 generalThemes with hrecs3
  have h0nd : recs0.Nodup := by
    rw [hrecs0]; split <;> simp
  have h1nd : recs1.Nodup := recLoop_nodup 3 sL recs0 h0nd
  have h2nd : recs2.Nodup := by
    rw [hrecs2]; split
    · exact recLoop_nodup 3 lL recs1 h1nd
    · exact h1nd
  have h3nd : recs3.Nodup := fallbackLoop_nodup 3 generalThemes recs2 h2nd
  have h3len : 3 ≤ recs3.length := by
    by_cases hl2 : recs2.length < 3
    · apply fallbackLoop_length 3 generalThemes recs2 hGnd
      have hsub : (generalThemes.filter (fun g => recs2.contains g)).length ≤
          recs2.length := by
        apply (List.subperm_of_subset (hGnd.filter _) ?_).length_le
        intro x hx
        have hm := List.of_mem_filter hx
        simpa using hm
      have htot := List.length_eq_length_filter_add
        (l := generalThemes) (fun g => recs2.contains g)
      have hG4 : generalThemes.length = 4 := rfl
      omega
    · obtain ⟨s, hs, _⟩ := fallbackLoop_append 3 generalThemes recs2
      rw [hrecs3, hs]
      simp only [List.length_append]
      omega
  refine ⟨?_, ?_, ?_, ?_⟩
  · simp [List.length_take]
    omega
  · exact h3nd.sublist (List.take_sublist 3 recs3)
  · intro hfoc
    obtain ⟨s1, hs1, _⟩ := recLoop_append 3 sL recs0
    have h12 : ∃ s, recs2 = recs1 ++ s := by
      rw [hrecs2]; split
      · obtain ⟨s2, hs2, _⟩ := recLoop_append 3 lL recs1
        exact ⟨s2, hs2⟩
      · exact ⟨[], by simp⟩
    obtain ⟨s2, hs2⟩ := h12
    obtain ⟨s3, hs3, _⟩ := fallbackLoop_append 3 generalThemes recs2
    have hr0 : recs0 = [prof.currentFocus.getD ""] := by
      rw [hrecs0, if_pos hfoc]
    rw [hrecs3, hs3, hs2, hrecs1, hs1, hr0]
    simp
  · intro x hx
    have hx3 : x ∈ recs3 := List.take_subset 3 recs3 hx
    obtain ⟨s3, hs3, hm3⟩ := fallbackLoop_append 3 generalThemes recs2
    rw [hrecs3] at hx3
    rw [hs3] at hx3
    rcases List.mem_append.mp hx3 with hx2 | hxg
    · have hx2s : x ∈ recs1 ∨ x ∈ lL := by
        rw [hrecs2] at hx2
        by_cases hl : recs1.length < 3
        · rw [if_pos hl] at hx2
          obtain ⟨s2, hs2, hm2⟩ := recLoop_append 3 lL recs1
          rw [hs2] at hx2
          rcases List.mem_append.mp hx2 with h | h
          · exact Or.inl h
          · exact Or.inr (hm2 x h)
        · rw [if_neg hl] at hx2
          exact Or.inl hx2
      rcases hx2s with hx1 | hxl
      · obtain ⟨s1, hs1, hm1⟩ := recLoop_append 3 sL recs0
        rw [hrecs1, hs1] at hx1
        rcases List.mem_append.mp hx1 with h | h
        · simp only [recommendPools, List.mem_append]
          exact Or.inl (Or.inl (Or.inl h))
        · simp only [recommendPools, List.mem_append]
          exact Or.inl (Or.inl (Or.inr (hm1 x h)))
      · simp only [recommendPools, List.mem_append]
        exact Or.inl (Or.inr hxl)
    · simp only [recommendPools, List.mem_append]
      exact Or.inr (hm3 x hxg)

/-- Witness for C8: a fresh profile with a focus theme set. -/
theorem C8_recommended_themes_witness :
    4 ≤ (recommendPools C8profile).dedup.length ∧
    ((UserSkillProfile.getRecommendedThemes C8profile 3).length = 3 ∧
     (UserSkillProfile.getRecommendedThemes C8profile 3).Nodup ∧
     (focusTruthy C8profile.currentFocus = true →
       (UserSkillProfile.getRecommendedThemes C8profile 3).head? =
         some (C8profile.currentFocus.getD "")) ∧
     ∀ x ∈ UserSkillProfile.getRecommendedThemes C8profile 3,
       x ∈ recommendPools C8profile) := by
  have hpools : recommendPools C8profile =
      ["zugzwang", "pins", "forks", "discovered attacks", "removing the defender"] := by
    simp [recommendPools, C8profile, UserSkillProfile.new, sortByAttempts,
      focusTruthy, generalThemes, List.mergeSort_nil]
  have h4 : 4 ≤ (recommendPools C8profile).dedup.length := by
    rw [hpools, List.Nodup.dedup (by decide)]
    decide
  exact ⟨h4, C8_recommended_themes C8profile h4⟩

/-- JS `a || a` is `a` for an optional string. -/
theorem jsOrOptStr_self (a : Option String) : jsOrOptStr a a = a := by
  cases a with
  | none => rfl
  | some s =>
    simp only [jsOrOptStr]
    split <;> rfl

/-- JS `a || a` is `a` for a plain string. -/
theorem jsOrStrStr_self (a : String) : jsOrStrStr a a = a := by
  simp only [jsOrStrStr]
  split <;> rfl

/-- JS `a || a` is `a` for a number. -/
theorem jsOrNat_self (a : Nat) : jsOrNat a a = a := by
  simp only [jsOrNat]
  split <;> simp_all

/-- What `importUserProgress(exportUserProgress())` on the same tracker
instance actually reproduces: everything except the `lastAttempt`
timestamps inside `themePerformance`, which the JSON round-trip converts
from `Date`s to their ISO strings. -/
theorem roundtrip_spec (st : SkillTrackerState) :
    (SkillTracker.importUserProgress st
        (stringifyParseExport (SkillTracker.exportUserProgress st))).1 = true ∧
    ((SkillTracker.importUserProgress st
        (stringifyParseExport (SkillTracker.exportUserProgress st))).2.skillProfile.ratings =
      st.skillProfile.ratings ∧
     (SkillTracker.importUserProgress st
        (stringifyParseExport (SkillTracker.exportUserProgress st))).2.skillProfile.solvedPuzzles =
      st.skillProfile.solvedPuzzles ∧
     (SkillTracker.importUserProgress st
        (stringifyParseExport (SkillTracker.exportUserProgress st))).2.skillProfile.struggledThemes =
      st.skillProfile.struggledThemes ∧
     (SkillTracker.importUserProgress st
        (stringifyParseExport (SkillTracker.exportUserProgress st))).2.skillProfile.currentFocus =
      st.skillProfile.currentFocus ∧
     (SkillTracker.importUserProgress st
        (stringifyParseExport (SkillTracker.exportUserProgress st))).2.skillProfile.currentLevel =
      st.skillProfile.currentLevel ∧
     (SkillTracker.importUserProgress st
        (stringifyParseExport (SkillTracker.exportUserProgress st))).2.completedLessons =
      st.completedLessons ∧
     (SkillTracker.importUserProgress st
        (stringifyParseExport (SkillTracker.exportUserProgress st))).2.currentLessonIndex =
      st.currentLessonIndex ∧
     (SkillTracker.importUserProgress st
        (stringifyParseExport (SkillTracker.exportUserProgress st))).2.skillProfile.themePerformance =
      st.skillProfile.themePerformance.map
        (fun p => (p.1, { p.2 with lastAttempt := p.2.lastAttempt.map serializeTime }))) := by
  simp only [SkillTracker.importUserProgress, stringifyParseExport,
    SkillTracker.exportUserProgress, if_pos rfl]
  refine ⟨rfl, rfl, rfl, rfl, jsOrOptStr_self _, jsOrStrStr_self _, rfl,
    jsOrNat_self _, rfl⟩

/-- The theme statistics recorded by the single attempt behind
`C6tracker`. -/
theorem C6tracker_tp : C6tracker.skillProfile.themePerformance =
    [("forks", ⟨1, 1, 30, some (.date 11)⟩)] := by
  simp [C6tracker, SkillTracker.updateAfterPuzzle, UserSkillProfile.updateAfterPuzzle,
    SkillTracker.new, UserSkillProfile.new, jsOrStr, tpFind, tpSet, C6puzzle]

/-- C6 counterexample: on a tracker that has recorded one attempt, the
round trip returns true but does not reproduce an equal
`themePerformance` — the `lastAttempt` `Date` comes back as a string. -/
theorem C6_roundtrip_counterexample :
    (SkillTracker.importUserProgress C6tracker
        (stringifyParseExport (SkillTracker.exportUserProgress C6tracker))).1 = true ∧
    (SkillTracker.importUserProgress C6tracker
        (stringifyParseExport (SkillTracker.exportUserProgress C6tracker))).2.skillProfile.themePerformance ≠
      C6tracker.skillProfile.themePerformance := by
  refine ⟨(roundtrip_spec C6tracker).1, ?_⟩
  rw [(roundtrip_spec C6tracker).2.2.2.2.2.2.2.2, C6tracker_tp]
  simp [serializeTime, isoString]

/-- C6 (amended): `importUserProgress(exportUserProgress())` on the same
tracker instance returns true and reproduces ratings, solvedPuzzles,
struggledThemes, currentFocus, currentLevel, completedLessons and
currentLessonIndex exactly; `themePerformance` is reproduced up to each
entry's `lastAttempt` `Date` being replaced by its serialized string form
(attempts, correct and avgTime are unchanged), so full snapshot equality
holds exactly when no entry carries a `Date`-valued `lastAttempt`. -/
theorem C6_roundtrip_amended (st : SkillTrackerState) :
    (SkillTracker.importUserProgress st
        (stringifyParseExport (SkillTracker.exportUserProgress st))).1 = true ∧
    ((SkillTracker.importUserProgress st
        (stringifyParseExport (SkillTracker.exportUserProgress st))).2.skillProfile.ratings =
      st.skillProfile.ratings ∧
     (SkillTracker.importUserProgress st
        (stringifyParseExport (SkillTracker.exportUserProgress st))).2.skillProfile.solvedPuzzles =
      st.skillProfile.solvedPuzzles ∧
     (SkillTracker.importUserProgress st
        (stringifyParseExport (SkillTracker.exportUserProgress st))).2.skillProfile.struggledThemes =
      st.skillProfile.struggledThemes ∧
     (SkillTracker.importUserProgress st
        (stringifyParseExport (SkillTracker.exportUserProgress st))).2.skillProfile.currentFocus =
      st.skillProfile.currentFocus ∧
     (SkillTracker.importUserProgress st
        (stringifyParseExport (SkillTracker.exportUserProgress st))).2.skillProfile.currentLevel =
      st.skillProfile.currentLevel ∧
     (SkillTracker.importUserProgress st
        (stringifyParseExport (SkillTracker.exportUserProgress st))).2.completedLessons =
      st.completedLessons ∧
     (SkillTracker.importUserProgress st
        (stringifyParseExport (SkillTracker.exportUserProgress st))).2.currentLessonIndex =
      st.currentLessonIndex ∧
     (SkillTracker.importUserProgress st
        (stringifyParseExport (SkillTracker.exportUserProgress st))).2.skillProfile.themePerformance =
      st.skillProfile.themePerformance.map
        (fun p => (p.1, { p.2 with lastAttempt := p.2.lastAttempt.map serializeTime }))) :=
  roundtrip_spec st

/-- Every branch of `evalLegal` clears the `isEvaluating` guard in the
state it returns. -/
theorem evalLegal_isEvaluating {σ : Type} (E : RulesEngine σ) (now : Nat)
    (st : PCState σ) (p : Puzzle) (fromSq toSq promo : String) (eng2 : σ) :
    (PuzzleCore.evalLegal E now st p fromSq toSq promo eng2).2.isEvaluating =
      false := by
  simp only [PuzzleCore.evalLegal]
  repeat' split
  all_goals rfl

/-- C9: `evaluateMove` returns `null` with no state mutation whenever
there is no current puzzle or the `isEvaluating` guard is set; and from
any state in which an evaluation can actually begin (guard clear — the
only reachable entry state in the sequential model), every return path,
the illegal-move early return included, leaves the guard clear. -/
theorem C9_reentrancy_guard {σ : Type} (E : RulesEngine σ) (now : Nat)
    (st : PCState σ) (fromSq toSq : String) (promotion : Option String) :
    ((st.currentPuzzle = none ∨ st.isEvaluating = true) →
      PuzzleCore.evaluateMove E now st fromSq toSq promotion = (none, st)) ∧
    (st.isEvaluating = false →
      (PuzzleCore.evaluateMove E now st fromSq toSq promotion).2.isEvaluating =
        false) := by
  constructor
  · intro h
    match hcp : st.currentPuzzle with
    | none => simp [PuzzleCore.evaluateMove, hcp]
    | some p =>
      have hev : st.isEvaluating = true := by
        rcases h with h | h
        · rw [hcp] at h
          exact absurd h (by simp)
        · exact h
      simp [PuzzleCore.evaluateMove, hcp, hev]
  · intro hev
    match hcp : st.currentPuzzle with
    | none => simp [PuzzleCore.evaluateMove, hcp, hev]
    | some p =>
      simp only [PuzzleCore.evaluateMove, hcp, hev]
      simp only [Bool.false_eq_true, if_false]
      split
      · rfl
      · exact evalLegal_isEvaluating E now _ p fromSq toSq _ _

/-- Witness for C9: a fresh evaluator (no current puzzle, guard clear). -/
theorem C9_reentrancy_guard_witness :
    ((PuzzleCore.new toyInit : PCState ToyState).currentPuzzle = none ∨
      (PuzzleCore.new toyInit : PCState ToyState).isEvaluating = true) ∧
    (PuzzleCore.new toyInit : PCState ToyState).isEvaluating = false ∧
    PuzzleCore.evaluateMove toyEngine 0 (PuzzleCore.new toyInit) "e2" "e4" none =
      (none, PuzzleCore.new toyInit) ∧
    (PuzzleCore.evaluateMove toyEngine 0 (PuzzleCore.new toyInit)
      "e2" "e4" none).2.isEvaluating = false :=
  ⟨Or.inl rfl, rfl,
   (C9_reentrancy_guard toyEngine 0 (PuzzleCore.new toyInit) "e2" "e4" none).1
     (Or.inl rfl),
   (C9_reentrancy_guard toyEngine 0 (PuzzleCore.new toyInit) "e2" "e4" none).2 rfl⟩

/-- C3: a legal move that is neither the expected solution move nor the
trap move is fully rolled back — the move history keeps its length (and
value) and, provided the rules engine's `undo` inverts the `move` it just
accepted (the documented collaborator contract), the engine state and
hence its position string are restored. -/
theorem C3_wrong_move_rollback {σ : Type} (E : RulesEngine σ) (now : Nat)
    (st : PCState σ) (p : Puzzle) (fromSq toSq : String)
    (promotion : Option String) (eng2 : σ)
    (hcp : st.currentPuzzle = some p)
    (hev : st.isEvaluating = false)
    (hmove : E.move st.engine ⟨fromSq, toSq, some (promotion.getD "q")⟩ = some eng2)
    (hundo : E.undo eng2 = st.engine)
    (hwrong : p.moves.get? st.moveHistory.length ≠
      some (buildMoveCode fromSq toSq (promotion.getD "q")))
    (hnotrap : ∀ ti, p.trapInfo = some ti →
      ¬(p.hasTrap = true ∧
        buildMoveCode fromSq toSq (promotion.getD "q") = ti.trapMove)) :
    (PuzzleCore.evaluateMove E now st fromSq toSq promotion).2.moveHistory =
      st.moveHistory ∧
    (PuzzleCore.evaluateMove E now st fromSq toSq promotion).2.engine =
      st.engine ∧
    E.fen (PuzzleCore.evaluateMove E now st fromSq toSq promotion).2.engine =
      E.fen st.engine := by
  simp only [PuzzleCore.evaluateMove, hcp, hev, Bool.false_eq_true, if_false]
  simp only [hmove]
  simp only [PuzzleCore.evalLegal, List.length_append, List.length_cons,
    List.length_nil, Nat.add_sub_cancel]
  rw [if_neg hwrong]
  have htrap : (match p.trapInfo with
      | some t => if (p.hasTrap && decide (buildMoveCode fromSq toSq
          (promotion.getD "q") = t.trapMove)) = true then some t else none
      | none => none) = (none : Option TrapInfo) := by
    cases ht : p.trapInfo with
    | none => rfl
    | some t =>
      have h := hnotrap t ht
      exact if_neg (fun hb => h (by simpa using hb))
  simp only [htrap]
  refine ⟨?_, ?_, ?_⟩ <;> simp [hundo]

/-- Witness for C3: a wrong but legal move in the toy engine. -/
theorem C3_wrong_move_rollback_witness :
    (C3state.currentPuzzle = some C3puzzle ∧
     C3state.isEvaluating = false ∧
     toyEngine.move C3state.engine ⟨"a2", "a3", some ((none : Option String).getD "q")⟩ =
       some C3eng2 ∧
     toyEngine.undo C3eng2 = C3state.engine ∧
     C3puzzle.moves.get? C3state.moveHistory.length ≠
       some (buildMoveCode "a2" "a3" ((none : Option String).getD "q")) ∧
     (∀ ti, C3puzzle.trapInfo = some ti →
       ¬(C3puzzle.hasTrap = true ∧
         buildMoveCode "a2" "a3" ((none : Option String).getD "q") = ti.trapMove))) ∧
    ((PuzzleCore.evaluateMove toyEngine 0 C3state "a2" "a3" none).2.moveHistory =
       C3state.moveHistory ∧
     (PuzzleCore.evaluateMove toyEngine 0 C3state "a2" "a3" none).2.engine =
       C3state.engine ∧
     toyEngine.fen
       (PuzzleCore.evaluateMove toyEngine 0 C3state "a2" "a3" none).2.engine =
       toyEngine.fen C3state.engine) :=
  ⟨⟨rfl, rfl, rfl, rfl, by decide, fun ti h => by simp [C3puzzle] at h⟩,
   C3_wrong_move_rollback toyEngine 0 C3state C3puzzle "a2" "a3" none C3eng2
     rfl rfl rfl rfl (by decide) (fun ti h => by simp [C3puzzle] at h)⟩

/-- C5: a legal move equal to the trap move (and not the expected solution
move) yields the interpolated trap message and is not rolled back — it
stays in the move history and the engine keeps the post-move state. -/
theorem C5_trap_move {σ : Type} (E : RulesEngine σ) (now : Nat)
    (st : PCState σ) (p : Puzzle) (ti : TrapInfo) (fromSq toSq : String)
    (promotion : Option String) (eng2 : σ)
    (hcp : st.currentPuzzle = some p)
    (hev : st.isEvaluating = false)
    (hmove : E.move st.engine ⟨fromSq, toSq, some (promotion.getD "q")⟩ = some eng2)
    (hht : p.hasTrap = true)
    (hti : p.trapInfo = some ti)
    (hcode : buildMoveCode fromSq toSq (promotion.getD "q") = ti.trapMove)
    (hwrong : p.moves.get? st.moveHistory.length ≠
      some (buildMoveCode fromSq toSq (promotion.getD "q"))) :
    ((PuzzleCore.evaluateMove E now st fromSq toSq promotion).1).map
      EvalResult.message = some ("You fell for the " ++ ti.name ++ " trap!") ∧
    ((PuzzleCore.evaluateMove E now st fromSq toSq promotion).1).map
      EvalResult.isTrap = some true ∧
    (PuzzleCore.evaluateMove E now st fromSq toSq promotion).2.moveHistory =
      st.moveHistory ++ [buildMoveCode fromSq toSq (promotion.getD "q")] ∧
    (PuzzleCore.evaluateMove E now st fromSq toSq promotion).2.engine = eng2 := by
  simp only [PuzzleCore.evaluateMove, hcp, hev, Bool.false_eq_true, if_false]
  simp only [hmove]
  simp only [PuzzleCore.evalLegal, List.length_append, List.length_cons,
    List.length_nil, Nat.add_sub_cancel]
  rw [if_neg hwrong]
  have htrap : (match p.trapInfo with
      | some t => if (p.hasTrap && decide (buildMoveCode fromSq toSq
          (promotion.getD "q") = t.trapMove)) = true then some t else none
      | none => none) = some ti := by
    rw [hti]
    simp [hht, hcode]
  simp only [htrap]
  and_intros <;> simp

/-- Witness for C5: falling into the Blackburne Shilling trap. -/
theorem C5_trap_move_witness :
    (C5state.currentPuzzle = some C5puzzle ∧
     C5state.isEvaluating = false ∧
     toyEngine.move C5state.engine ⟨"f3", "e5", some ((some "" : Option String).getD "q")⟩ =
       some C5eng2 ∧
     C5puzzle.hasTrap = true ∧
     C5puzzle.trapInfo = some C5trapInfo ∧
     buildMoveCode "f3" "e5" ((some "" : Option String).getD "q") = C5trapInfo.trapMove ∧
     C5puzzle.moves.get? C5state.moveHistory.length ≠
       some (buildMoveCode "f3" "e5" ((some "" : Option String).getD "q"))) ∧
    (((PuzzleCore.evaluateMove toyEngine 0 C5state "f3" "e5" (some "")).1).map
       EvalResult.message =
       some ("You fell for the " ++ C5trapInfo.name ++ " trap!") ∧
     ((PuzzleCore.evaluateMove toyEngine 0 C5state "f3" "e5" (some "")).1).map
       EvalResult.isTrap = some true ∧
     (PuzzleCore.evaluateMove toyEngine 0 C5state "f3" "e5" (some "")).2.moveHistory =
       C5state.moveHistory ++ [buildMoveCode "f3" "e5" ((some "" : Option String).getD "q")] ∧
     (PuzzleCore.evaluateMove toyEngine 0 C5state "f3" "e5" (some "")).2.engine =
       C5eng2) :=
  ⟨⟨rfl, rfl, rfl, rfl, rfl, by decide, by decide⟩,
   C5_trap_move toyEngine 0 C5state C5puzzle C5trapInfo "f3" "e5" (some "") C5eng2
     rfl rfl rfl rfl rfl (by decide) (by decide)⟩

/-- C10: on a legal, wrong, non-trap move the returned result carries the
position captured after the move but before the rollback, while the
engine itself is rolled back — so (whenever the move changed the position
string at all) the result's `position` disagrees with the engine's actual
position after the call. -/
theorem C10_stale_position {σ : Type} (E : RulesEngine σ) (now : Nat)
    (st : PCState σ) (p : Puzzle) (fromSq toSq : String)
    (promotion : Option String) (eng2 : σ)
    (hcp : st.currentPuzzle = some p)
    (hev : st.isEvaluating = false)
    (hmove : E.move st.engine ⟨fromSq, toSq, some (promotion.getD "q")⟩ = some eng2)
    (hundo : E.undo eng2 = st.engine)
    (hfen : E.fen eng2 ≠ E.fen st.engine)
    (hwrong : p.moves.get? st.moveHistory.length ≠
      some (buildMoveCode fromSq toSq (promotion.getD "q")))
    (hnotrap : ∀ ti, p.trapInfo = some ti →
      ¬(p.hasTrap = true ∧
        buildMoveCode fromSq toSq (promotion.getD "q") = ti.trapMove)) :
    ((PuzzleCore.evaluateMove E now st fromSq toSq promotion).1).map
      EvalResult.position = some (some (E.fen eng2)) ∧
    (PuzzleCore.evaluateMove E now st fromSq toSq promotion).2.engine =
      st.engine ∧
    ((PuzzleCore.evaluateMove E now st fromSq toSq promotion).1).map
      EvalResult.position ≠
      some (some (E.fen
        (PuzzleCore.evaluateMove E now st fromSq toSq promotion).2.engine)) := by
  simp only [PuzzleCore.evaluateMove, hcp, hev, Bool.false_eq_true, if_false]
  simp only [hmove]
  simp only [PuzzleCore.evalLegal, List.length_append, List.length_cons,
    List.length_nil, Nat.add_sub_cancel]
  rw [if_neg hwrong]
  have htrap : (match p.trapInfo with
      | some t => if (p.hasTrap && decide (buildMoveCode fromSq toSq
          (promotion.getD "q") = t.trapMove)) = true then some t else none
      | none => none) = (none : Option TrapInfo) := by
    cases ht : p.trapInfo with
    | none => rfl
    | some t =>
      have h := hnotrap t ht
      exact if_neg (fun hb => h (by simpa using hb))
  simp only [htrap]
  refine ⟨rfl, by simp [hundo], ?_⟩
  simp [hundo]
  exact hfen

/-- Witness for C10: the wrong move of the C3 scenario, whose toy-engine
position string visibly changes. -/
theorem C10_stale_position_witness :
    (C3state.currentPuzzle = some C3puzzle ∧
     C3state.isEvaluating = false ∧
     toyEngine.move C3state.engine ⟨"a2", "a3", some ((none : Option String).getD "q")⟩ =
       some C3eng2 ∧
     toyEngine.undo C3eng2 = C3state.engine ∧
     toyEngine.fen C3eng2 ≠ toyEngine.fen C3state.engine ∧
     C3puzzle.moves.get? C3state.moveHistory.length ≠
       some (buildMoveCode "a2" "a3" ((none : Option String).getD "q")) ∧
     (∀ ti, C3puzzle.trapInfo = some ti →
       ¬(C3puzzle.hasTrap = true ∧
         buildMoveCode "a2" "a3" ((none : Option String).getD "q") = ti.trapMove))) ∧
    (((PuzzleCore.evaluateMove toyEngine 0 C3state "a2" "a3" none).1).map
       EvalResult.position = some (some (toyEngine.fen C3eng2)) ∧
     (PuzzleCore.evaluateMove toyEngine 0 C3state "a2" "a3" none).2.engine =
       C3state.engine ∧
     ((PuzzleCore.evaluateMove toyEngine 0 C3state "a2" "a3" none).1).map
       EvalResult.position ≠
       some (some (toyEngine.fen
         (PuzzleCore.evaluateMove toyEngine 0 C3state "a2" "a3" none).2.engine))) :=
  ⟨⟨rfl, rfl, rfl, rfl, by decide, by decide, fun ti h => by simp [C3puzzle] at h⟩,
   C10_stale_position toyEngine 0 C3state C3puzzle "a2" "a3" none C3eng2
     rfl rfl rfl rfl (by decide) (by decide) (fun ti h => by simp [C3puzzle] at h)⟩

/-- C4 counterexample: after two hints and a `resetPuzzle()`, the next
`getHint()` returns the level-2 "specific" hint, not the level-0 vague
one — `hintCount` lives on the puzzle object and no (re)initialization
resets it. -/
theorem C4_hint_reset_counterexample :
    ((PuzzleCore.getHint toyEngine C4start).1).map Hint.type = some "vague" ∧
    ((PuzzleCore.getHint toyEngine C4afterReset).1).map Hint.type =
      some "specific" ∧
    ((PuzzleCore.getHint toyEngine C4afterReset).1).map Hint.type ≠
      some "vague" := by
  decide

/-- C4 (amended): `initializePuzzle` stores the passed puzzle unchanged —
in particular it does not reset its `hintCount` — and `resetPuzzle`
re-initializes with the stored (already mutated) puzzle, so the hint
level survives a reset; the first `getHint` after initializing a puzzle
whose `hintCount` is absent or 0 does return the level-0 vague hint. -/
theorem C4_hint_levels_amended {σ : Type} (E : RulesEngine σ) (st : PCState σ)
    (p : Puzzle) (mv : String) (pc : EnginePiece)
    (h0 : p.hintCount.getD 0 = 0)
    (hmv : p.moves.get? 0 = some mv)
    (hpc : E.get (E.load st.engine p.fen) (mv.take 2) = some pc) :
    ((PuzzleCore.getHint E (PuzzleCore.initializePuzzle E st p).2).1).map
      Hint.type = some "vague" ∧
    (PuzzleCore.initializePuzzle E st p).2.currentPuzzle = some p ∧
    (∀ q, st.currentPuzzle = some q →
      (PuzzleCore.resetPuzzle E st).2.currentPuzzle = some q) := by
  refine ⟨?_, rfl, ?_⟩
  · have hlen : ¬(p.moves.length ≤ 0) := by
      cases hm : p.moves with
      | nil => rw [hm] at hmv; simp at hmv
      | cons a l => simp [hm]
    simp only [PuzzleCore.getHint, PuzzleCore.initializePuzzle, List.length_nil]
    rw [if_neg hlen]
    have hmv2 : p.moves[0]? = some mv := by simpa using hmv
    simp [hmv2, hpc, h0]
  · intro q hq
    simp [PuzzleCore.resetPuzzle, hq, PuzzleCore.initializePuzzle]

/-- Witness for the amended C4 theorem: a freshly initialized puzzle with
no hints taken yields the vague hint, and a reset keeps the stored
puzzle. -/
theorem C4_hint_levels_amended_witness :
    (C4puzzle.hintCount.getD 0 = 0 ∧
     C4puzzle.moves.get? 0 = some "c4f7" ∧
     toyEngine.get (toyEngine.load (PuzzleCore.new toyInit).engine C4puzzle.fen)
       ("c4f7".take 2) = some ⟨"p", "w"⟩) ∧
    (((PuzzleCore.getHint toyEngine
        (PuzzleCore.initializePuzzle toyEngine (PuzzleCore.new toyInit) C4puzzle).2).1).map
      Hint.type = some "vague" ∧
     (PuzzleCore.initializePuzzle toyEngine (PuzzleCore.new toyInit)
       C4puzzle).2.currentPuzzle = some C4puzzle ∧
     (∀ q, (PuzzleCore.new toyInit : PCState ToyState).currentPuzzle = some q →
       (PuzzleCore.resetPuzzle toyEngine (PuzzleCore.new toyInit)).2.currentPuzzle =
         some q)) :=
  ⟨⟨rfl, rfl, rfl⟩,
   C4_hint_levels_amended toyEngine (PuzzleCore.new toyInit) C4puzzle "c4f7"
     ⟨"p", "w"⟩ rfl rfl rfl⟩

/-- C2: the failing input of the solution-sequence claim.  The first
solution move e2e4, submitted as `evaluateMove("e2","e4")` with the
promotion argument omitted, is formatted as `"e2e4q"` (the `'q'` default
survives `promotion || ''`), never matches the stored 4-character
solution move, and is treated as a wrong move and rolled back — so the
scripted sequence can never complete a puzzle. -/
theorem C2_promotion_default_bug :
    buildMoveCode "e2" "e4" ((none : Option String).getD "q") = "e2e4q" ∧
    ((PuzzleCore.evaluateMove toyEngine 0 C2state "e2" "e4" none).1).map
      EvalResult.isCorrect = some false ∧
    ((PuzzleCore.evaluateMove toyEngine 0 C2state "e2" "e4" none).1).map
      EvalResult.completed = some false ∧
    ((PuzzleCore.evaluateMove toyEngine 0 C2state "e2" "e4" none).1).map
      EvalResult.message = some "Not the best move. Try again." ∧
    ((PuzzleCore.evaluateMove toyEngine 0 C2state "e2" "e4" none).1).map
      EvalResult.opponentMove = some none ∧
    (PuzzleCore.evaluateMove toyEngine 0 C2state "e2" "e4" none).2.moveHistory = [] ∧
    (PuzzleCore.evaluateMove toyEngine 0 C2state "e2" "e4" none).2.puzzleHistory = [] := by
  decide

end ChessGuerilla
